import Mathlib

/-!
Verification development for the ai2cli conversational state machine.

The JavaScript sources (src/machine.js, src/index.js, src/util.js, src/prompt.js
and the state handlers under src/states/) are shallowly embedded: JS strings are
lists of characters, handlers are pure functions from a context and the inputs
they consume from the environment (prompt results, LLM outcomes, child-process
events) to a `State × Context` transition, and the runner loop is a fold over a
list of such events.  JavaScript object identity, which the source relies on
when pushing the current exchange into the history array, is modelled by a
ghost allocation index on each exchange.
-/

namespace Ai2cli

/-- JavaScript strings, modelled as lists of UTF-16-ish characters. -/
abbrev JStr := List Char

/-- The apostrophe character, used when spelling the prompt template texts. -/
def apos : Char := Char.ofNat 39

/-- The backtick character (escaped by `copyToClipboard`). -/
def backtick : Char := Char.ofNat 96

/-- Whitespace recognised by `String.prototype.trim` (the characters relevant to
this code base: space, tab, newline, carriage return, vertical tab, form feed). -/
def isJsWhitespace (c : Char) : Bool :=
  c = ' ' || c = '\t' || c = '\n' || c = '\r' || c = Char.ofNat 11 || c = Char.ofNat 12

/-- Embedding of `String.prototype.trim`. -/
def jsTrim (s : JStr) : JStr :=
  ((s.dropWhile isJsWhitespace).reverse.dropWhile isJsWhitespace).reverse

/-- The states of the machine (src/machine.js `State`).  `DEBUG` is the value the
review handler resolves with for the debug key; the runner has no case for it and
aborts, so it acts as a stuck state in the model. -/
inductive State
  | NEW
  | USER_REQUEST
  | USER_RESPONSE
  | REQUEST_CLARIFICATION
  | EXECUTE_COMMAND
  | REFINE
  | CHANGE_MODEL
  | SAVE_SCRIPT
  | SCRIPT_SELECTION
  | SETUP
  | DEBUG
  | EXIT
deriving DecidableEq, Repr

/-- The `type` tag on an exchange: `"prompt"`, `"clarification"` or `"refinement"`. -/
inductive ExchangeType
  | prompt
  | clarification
  | refinement
deriving DecidableEq, Repr

/-- The structured LLM output (src/prompt.js `commandSchema` / `scriptSchema`);
the fields the state handlers consult are kept, command-only and script-only
fields live side by side as in the dynamically typed source. -/
structure GeneratedResult where
  content : JStr := []
  explanation : JStr := []
  changelog : JStr := []
  clarification_needed : JStr := []
  destructive : Bool := false
  should_be_script : Bool := false
  breakdownPresent : Bool := true
  script_name : JStr := []
  hasParameters : Bool := false
  dependencies : JStr := []
deriving DecidableEq, Repr

/-- The dynamic JavaScript value found in the `executionResults` (and
`previousExecutionResults`) slots of an exchange: absent (`undefined`), `null`
(written by the change-model handler), a plain string (written by
`handleExecuteCommand`), or the `{ output, error }` record the readers in
src/states/refine.js and src/states/userResponse.js expect. -/
inductive ExecResults
  | undef
  | nullv
  | str (s : JStr)
  | outcome (output : JStr) (error : Bool)
deriving DecidableEq, Repr

/-- `executionResults?.output`: optional chaining yields `undefined` on
`undefined`/`null`; a plain string has no `output` property; only the record
carries one. -/
def ExecResults.outputField : ExecResults → Option JStr
  | .outcome o _ => some o
  | _ => none

/-- `executionResults?.error` truthiness. -/
def ExecResults.errorField : ExecResults → Bool
  | .outcome _ e => e
  | _ => false

/-- JS truthiness of the `executionResults` value itself (consulted by
`getRefinementPrompt`): `undefined`, `null` and the empty string are falsy,
objects are always truthy. -/
def ExecResults.isTruthy : ExecResults → Bool
  | .undef => false
  | .nullv => false
  | .str s => !s.isEmpty
  | .outcome _ _ => true

/-- String coercion used when the value is spliced into a template literal. -/
def ExecResults.toTemplateString : ExecResults → JStr
  | .undef => "undefined".data
  | .nullv => "null".data
  | .str s => s
  | .outcome _ _ => "[object Object]".data

/-- One exchange (the `currentCommand` objects of the source).  `eid` is a ghost
allocation index modelling JavaScript object identity: every object literal the
source creates receives a fresh index.  Fields the source leaves out of a
literal default to `undefined` (here: the default values). -/
structure Exchange where
  eid : Nat := 0
  request : JStr := []
  existingScript : Option JStr := none
  response : Option GeneratedResult := none
  refusedClarification : Bool := false
  type : ExchangeType := .prompt
  executionResults : ExecResults := .undef
  previousExecutionResults : ExecResults := .undef
deriving DecidableEq, Repr

/-- The conversation context threaded between states (src/index.js `entry`,
merged shallowly by the runner).  `nextEid` is the ghost allocation counter
backing `Exchange.eid`; `debugOption` is `options.debug`. -/
structure Context where
  model : JStr := []
  scriptMode : Bool := false
  currentCommand : Exchange := {}
  commandHistory : List Exchange := []
  scriptName : Option JStr := none
  hasMultipleModels : Bool := false
  modelChanged : Bool := false
  debugOption : Bool := false
  nextEid : Nat := 1
deriving DecidableEq, Repr

/-- Result of running an interactive enquirer prompt: entered text, or the
rejection thrown on Ctrl+C / Escape (the `catch` paths of the handlers). -/
inductive PromptRes
  | text (s : JStr)
  | cancelled
deriving DecidableEq, Repr

/-- Outcome of the `generateObject` call in `handleUserRequest`: a structured
result, or a throw / missing result (both of which exit). -/
inductive GenOutcome
  | ok (result : GeneratedResult)
  | failed
deriving DecidableEq, Repr

/-- `crypto.randomBytes(4).toString("hex")`: hex digit for a nibble. -/
def hexDigit (n : Nat) : Char :=
  if n < 10 then Char.ofNat (48 + n) else Char.ofNat (87 + n)

/-- Two lowercase hex digits for one byte. -/
def byteToHex (b : Nat) : JStr :=
  [hexDigit (b % 256 / 16), hexDigit (b % 16)]

/-- src/util.js `generateRandomHash`, applied to the four random bytes the
environment supplies. -/
def generateRandomHash (bytes : List Nat) : JStr :=
  (bytes.map byteToHex).flatten

/-- Characters kept by the kebab-case normalisation regex class `[a-z0-9]`. -/
def isKebabKeep (c : Char) : Bool :=
  (97 ≤ c.toNat && c.toNat ≤ 122) || (48 ≤ c.toNat && c.toNat ≤ 57)

/-- `replace(/[^a-z0-9]+/g, "-")`: every maximal run of excluded characters
becomes a single hyphen.  The boolean records whether we are inside such a run. -/
def collapseNonKebabGo : Bool → JStr → JStr
  | _, [] => []
  | inRun, c :: rest =>
    if isKebabKeep c then c :: collapseNonKebabGo false rest
    else if inRun then collapseNonKebabGo true rest
    else '-' :: collapseNonKebabGo true rest

/-- The full collapse pass, starting outside a run. -/
def collapseNonKebab (s : JStr) : JStr :=
  collapseNonKebabGo false s

/-- One hyphen removed from the front, if present (half of
`replace(/^-|-$/g, "")`). -/
def stripLeadHyphen : JStr → JStr
  | '-' :: rest => rest
  | other => other

/-- `replace(/^-|-$/g, "")`: one leading and one trailing hyphen are removed
(the pattern matches a single hyphen at either end). -/
def stripEdgeHyphen (s : JStr) : JStr :=
  (stripLeadHyphen ((stripLeadHyphen s).reverse)).reverse

/-- The script-name normalisation of `handleUserRequest` (src/states/userRequest.js):
`scriptName.toLowerCase().replace(/[^a-z0-9]+/g, "-").replace(/^-|-$/g, "")`. -/
def normalizeScriptName (s : JStr) : JStr :=
  stripEdgeHyphen (collapseNonKebab (s.map Char.toLower))

/-- JavaScript `a || b` on a nullable string: `null`/`undefined` and the empty
string fall through to the right operand. -/
def jsOrStr (a b : Option JStr) : Option JStr :=
  match a with
  | some s => if s.isEmpty then b else some s
  | none => b

/-- JS truthiness of a nullable string. -/
def jsTruthy : Option JStr → Bool
  | some s => !s.isEmpty
  | none => false

/-- src/prompt.js `getClarificationPrompt` (template literal, indentation
included). -/
def getClarificationPrompt (request : JStr) : JStr :=
  "I".data ++ [apos] ++
  "m providing the following details that were previously missing from my initial request.\n  ".data
  ++ request ++
  "\n  Please use these details to generate a more accurate command.\n  If the above clarification is not sufficient then ask for further clarification.\n\n  make sure to include a changelog that summarizes the changes you".data
  ++ [apos] ++ "ve made to the original command or script.\n  ".data

/-- The closing sentence of the refinement templates for a command or script. -/
def changelogSentenceCommandOrScript : JStr :=
  "When refining, make sure to include a changelog that summarizes the changes you".data
  ++ [apos] ++ "ve made to the original command or script.".data

/-- The shared tail of the refinement templates for a command or script. -/
def changelogTailCommandOrScript : JStr :=
  "\n\n".data ++ changelogSentenceCommandOrScript

/-- The tail of the refinement template for an existing script. -/
def changelogTailScript : JStr :=
  "\n\nWhen refining, make sure to include a changelog that summarizes the changes you".data
  ++ [apos] ++ "ve made to the original script.".data

/-- src/prompt.js `getRefinementPrompt({ existingScript, request, executionResults })`:
the existing-script wrapper, the wrapper embedding execution results when that
argument is truthy, or the plain wrapper. -/
def getRefinementPrompt (existingScript : Option JStr) (request : JStr)
    (executionResults : ExecResults) : JStr :=
  if jsTruthy existingScript then
    "Refine the following script: ".data ++ existingScript.getD []
      ++ " based on on the following request: ".data ++ request
      ++ changelogTailScript
  else if executionResults.isTruthy then
    "We ran it and got these results: ".data ++ executionResults.toTemplateString
      ++ ". Please refine based on the following request: ".data ++ request
      ++ changelogTailCommandOrScript
  else
    "Please refine the previous response based on the following request:\n  ".data
      ++ request ++ "\n  \n".data ++ changelogSentenceCommandOrScript

/-- Message roles of the generation request. -/
inductive Role
  | system
  | user
  | assistant
deriving DecidableEq, Repr

/-- Message contents: template text, or the `JSON.stringify` serialisation of a
prior structured response (kept symbolic). -/
inductive MsgContent
  | text (s : JStr)
  | json (r : Option GeneratedResult)
deriving DecidableEq, Repr

/-- One chat message. -/
structure Message where
  role : Role
  content : MsgContent
deriving DecidableEq, Repr

/-- The `getPrompt` helper of `buildMessagesLLM` (src/states/userRequest.js):
the user turn derived from an exchange.  Note it reads `command.executionResults`
(not `previousExecutionResults`) and never passes `existingScript`. -/
def getPrompt (command : Exchange) : JStr :=
  match command.type with
  | .clarification => getClarificationPrompt command.request
  | .refinement => getRefinementPrompt none command.request command.executionResults
  | .prompt => command.request

/-- src/states/userRequest.js `buildMessagesLLM`: the system turn, a user turn
plus serialised assistant turn per history entry, then the user turn for the
in-progress exchange.  The system template itself is an external concern and is
passed in. -/
def buildMessagesLLM (context : Context) (systemPrompt : JStr) : List Message :=
  Message.mk .system (.text systemPrompt)
    :: ((context.commandHistory.map fun c =>
          [Message.mk .user (.text (getPrompt c)), Message.mk .assistant (.json c.response)]).flatten
        ++ [Message.mk .user (.text (getPrompt context.currentCommand))])

/-- Inputs one run of `handleUserRequest` consumes from the environment: the
generation outcome, the four random bytes behind `generateRandomHash`, and the
answer to the script-conversion Confirm prompt (`none` models cancellation,
which the source treats like declining). -/
structure UserRequestInput where
  gen : GenOutcome
  randomBytes : List Nat := []
  confirm : Option Bool := none
deriving DecidableEq, Repr

/-- src/states/userRequest.js `handleUserRequest`.  On failure (a throw from the
collaborator, or a missing result) it exits.  On success it attaches the result
to the current exchange, computes the script name on first creation
(`context.scriptName || newScriptName`), optionally offers the command→script
conversion, and finally routes to clarification or review. -/
def handleUserRequest (context : Context) (input : UserRequestInput) : State × Context :=
  match input.gen with
  | .failed => (State.EXIT, context)
  | .ok result =>
    let newScriptName : Option JStr :=
      if context.scriptMode then
        let suggested :=
          if result.script_name.isEmpty then "generated-script".data else result.script_name
        some (normalizeScriptName suggested ++ '-' :: generateRandomHash input.randomBytes)
      else none
    let newContext : Context :=
      { context with
        currentCommand := { context.currentCommand with response := some result }
        scriptName := jsOrStr context.scriptName newScriptName }
    if !context.scriptMode && result.should_be_script && (input.confirm == some true) then
      (State.USER_REQUEST, { context with scriptMode := true })
    else if !context.currentCommand.refusedClarification
        && !result.clarification_needed.isEmpty
        && !(jsTrim result.clarification_needed).isEmpty then
      (State.REQUEST_CLARIFICATION, newContext)
    else
      (State.USER_RESPONSE, newContext)

/-- Marking the current exchange as having refused clarification (the spread
`{ ...currentCommand, refusedClarification: true }`). -/
def refuseClarification (context : Context) : Context :=
  { context with
    currentCommand := { context.currentCommand with refusedClarification := true } }

/-- src/states/requestClarification.js `handleRequestClarification`: empty
(trimmed) input or cancellation refuses clarification and reviews; other input
pushes the current exchange into history and starts a `clarification` exchange. -/
def handleRequestClarification (context : Context) (input : PromptRes) : State × Context :=
  match input with
  | .cancelled => (State.USER_RESPONSE, refuseClarification context)
  | .text raw =>
    let clarificationInput := jsTrim raw
    if clarificationInput.isEmpty then
      (State.USER_RESPONSE, refuseClarification context)
    else
      (State.USER_REQUEST,
        { context with
          currentCommand :=
            { eid := context.nextEid
              request := clarificationInput
              type := .clarification }
          commandHistory := context.commandHistory ++ [context.currentCommand]
          nextEid := context.nextEid + 1 })

/-- src/states/refine.js `handleRefine`: empty input or cancellation returns to
review; other input pushes the current exchange and starts a `refinement`
exchange whose `previousExecutionResults` carries the prior results. -/
def handleRefine (context : Context) (input : PromptRes) : State × Context :=
  match input with
  | .cancelled => (State.USER_RESPONSE, context)
  | .text refinementRequest =>
    if (jsTrim refinementRequest).isEmpty then
      (State.USER_RESPONSE, context)
    else
      (State.USER_REQUEST,
        { context with
          currentCommand :=
            { eid := context.nextEid
              request := refinementRequest
              previousExecutionResults := context.currentCommand.executionResults
              type := .refinement }
          commandHistory := context.commandHistory ++ [context.currentCommand]
          nextEid := context.nextEid + 1 })

/-- One stdio chunk captured from the child process: its text and whether it
arrived on stderr (stderr activity flags the run as an error). -/
structure OutputChunk where
  text : JStr
  fromStderr : Bool
deriving DecidableEq, Repr

/-- How the spawned child run ended: a `close` event with an exit code, or an
`error` event (failure to start). -/
inductive ChildEnd
  | close (code : Int)
  | spawnError (message : JStr)
deriving DecidableEq, Repr

/-- Environment of one child-process execution inside `handleExecuteCommand`:
the captured output chunks in arrival order, whether the user interrupt fired
(`sigintHandler` ran), and how the child ended. -/
structure ExecRun where
  chunks : List OutputChunk := []
  interrupted : Bool := false
  ending : ChildEnd
deriving DecidableEq, Repr

/-- Observable process-level effects of one execution: which process the
interrupt signalled, whether the parent was exited, whether the temporary
SIGINT listener is still installed after the run, and whether the execution
promise resolved. -/
structure ExecEffects where
  childKilled : Bool
  parentExited : Bool
  sigintListenerInstalled : Bool
  promiseResolved : Bool
deriving DecidableEq, Repr

/-- The rejection message built in the `close` handler. -/
def closeRejectMessage (code : Int) : JStr :=
  "Command exited with code ".data ++ (toString code).data

/-- The rejection message built in the `error` handler. -/
def spawnRejectMessage (message : JStr) : JStr :=
  "Failed to start command: ".data ++ message

/-- The execution phase of src/states/executeCommand.js (lines 130-205): install
the SIGINT handler (which kills only the child and marks `terminatedByUser`),
accumulate stdout/stderr into one buffer, then either resolve (exit code 0 or a
user-initiated termination) or reject; a rejection is caught, flags the error
and appends `Error: <message>\n` to the buffer.  The `close` handler, which is
registered unconditionally, performs the `removeListener`; Node emits `close`
after `exit` and also after an `error` when the child failed to spawn, so the
listener is torn down on the spawn-error path as well (the close handler's late
reject is a no-op on the already-settled promise, which kept the spawn-error
rejection message).  Returns the effects, the accumulated `executionOutput` and
`hasError`. -/
def runExecution (run : ExecRun) : ExecEffects × JStr × Bool :=
  let captured := (run.chunks.map OutputChunk.text).flatten
  let streamError := run.chunks.any OutputChunk.fromStderr
  match run.ending with
  | .close code =>
    let resolved := (code == 0) || run.interrupted
    let effects : ExecEffects :=
      { childKilled := run.interrupted
        parentExited := false
        sigintListenerInstalled := false
        promiseResolved := resolved }
    if resolved then (effects, captured, streamError)
    else
      (effects, captured ++ "Error: ".data ++ closeRejectMessage code ++ ['\n'], true)
  | .spawnError message =>
    let effects : ExecEffects :=
      { childKilled := run.interrupted
        parentExited := false
        sigintListenerInstalled := false
        promiseResolved := false }
    (effects, captured ++ "Error: ".data ++ spawnRejectMessage message ++ ['\n'], true)

/-- `MAX_OUTPUT_LENGTH` of src/states/executeCommand.js. -/
def MAX_OUTPUT_LENGTH : Nat := 1000

/-- The truncation marker template
`\n[Output truncated - ${executionOutput.length - MAX_OUTPUT_LENGTH} more characters]`,
evaluated against the original length. -/
def truncationMarker (totalLength : Nat) : JStr :=
  '\n' :: "[Output truncated - ".data
    ++ (Nat.repr (totalLength - MAX_OUTPUT_LENGTH)).data
    ++ " more characters]".data

/-- The truncation step (lines 207-214): output longer than 1000 characters is
cut to its first 1000 characters plus the marker. -/
def truncateOutput (executionOutput : JStr) : JStr :=
  if executionOutput.length > MAX_OUTPUT_LENGTH then
    executionOutput.take MAX_OUTPUT_LENGTH ++ truncationMarker executionOutput.length
  else executionOutput

/-- The post-execution refinement prompt and its dispatch (lines 222-249): an
empty answer exits, a non-empty answer pushes the just-executed exchange and
starts a `refinement` exchange whose `executionResults` slot receives the plain
output string; the `catch` path returns to `EXECUTE_COMMAND`. -/
def postExecutionPrompt (context : Context) (executionOutput : JStr)
    (answer : PromptRes) : State × Context :=
  match answer with
  | .cancelled => (State.EXECUTE_COMMAND, context)
  | .text a =>
    if (jsTrim a).isEmpty then (State.EXIT, context)
    else
      (State.USER_REQUEST,
        { context with
          currentCommand :=
            { eid := context.nextEid
              request := a
              executionResults := .str executionOutput
              type := .refinement }
          commandHistory := context.commandHistory ++ [context.currentCommand]
          nextEid := context.nextEid + 1 })

/-- src/states/executeCommand.js `handleExecuteCommand`: run the child, truncate
the captured output, then dispatch on the refinement prompt.  The script-saving
and parameter-collection preamble does not touch the transition or the context
and is out of the state-protocol model. -/
def handleExecuteCommand (context : Context) (run : ExecRun)
    (answer : PromptRes) : State × Context :=
  postExecutionPrompt context (truncateOutput (runExecution run).2.1) answer

/-- Whether `handleUserResponse` renders the Last Output block
(src/states/userResponse.js line 224: `if (currentCommand.executionResults?.output)`). -/
def rendersLastOutput (currentCommand : Exchange) : Bool :=
  match currentCommand.executionResults.outputField with
  | some o => !o.isEmpty
  | none => false

/-- The single-keystroke actions of the review menu. -/
inductive ReviewKey
  | enter
  | copyKey
  | scriptKey
  | breakdownKey
  | debugKey
  | modelKey
  | refineKey
  | ctrlC
deriving DecidableEq, Repr

/-- src/states/userResponse.js keypress dispatch.  `none` means the key is
ignored (or, for the breakdown sub-view, the menu is re-entered) and the wait
continues. -/
def userResponseDispatch (context : Context) (k : ReviewKey) : Option (State × Context) :=
  match k with
  | .enter => some (State.EXECUTE_COMMAND, context)
  | .copyKey => some (State.EXIT, context)
  | .breakdownKey => none
  | .scriptKey =>
    if !context.scriptMode then
      some (State.USER_REQUEST, { context with scriptMode := true })
    else none
  | .debugKey => if context.debugOption then some (State.DEBUG, context) else none
  | .modelKey => if context.hasMultipleModels then some (State.CHANGE_MODEL, context) else none
  | .refineKey => some (State.REFINE, context)
  | .ctrlC => some (State.EXIT, context)

/-- Result of the model Select prompt. -/
inductive SelectRes
  | selected (m : JStr)
  | cancelled
deriving DecidableEq, Repr

/-- src/states/changeModel.js `handleChangeModel`: re-selecting the active model
is a no-op back to review; a different model updates `model`, sets the
`modelChanged` marker and writes `null` over the current exchange's
`executionResults` before regenerating.  Cancellation exits. -/
def handleChangeModel (context : Context) (input : SelectRes) : State × Context :=
  match input with
  | .cancelled => (State.EXIT, context)
  | .selected m =>
    if m = context.model then (State.USER_RESPONSE, context)
    else
      (State.USER_REQUEST,
        { context with
          model := m
          modelChanged := true
          currentCommand := { context.currentCommand with executionResults := .nullv } })

/-- Inputs of src/states/new.js `handleNew`: cancellation of either prompt, the
refine-existing-script choice, or a generate choice plus the request text. -/
inductive NewInput
  | cancelled
  | refineExisting
  | generate (script : Bool) (request : PromptRes)
deriving DecidableEq, Repr

/-- src/states/new.js `handleNew`: replaces the current exchange with a fresh
`prompt` exchange without touching the history. -/
def handleNew (context : Context) (input : NewInput) : State × Context :=
  match input with
  | .cancelled => (State.EXIT, context)
  | .refineExisting => (State.SCRIPT_SELECTION, context)
  | .generate isScript req =>
    match req with
    | .cancelled => (State.EXIT, context)
    | .text request =>
      if (jsTrim request).isEmpty then (State.EXIT, context)
      else
        (State.USER_REQUEST,
          { context with
            currentCommand :=
              { eid := context.nextEid
                request := request
                existingScript := none
                type := .prompt
                refusedClarification := false
                response := none }
            scriptMode := isScript
            nextEid := context.nextEid + 1 })

/-- Inputs of src/states/scriptSelection.js: no scripts on disk, a cancellation,
or a chosen script (its name, loaded content and the refinement text). -/
inductive ScriptSelectionInput
  | noScripts
  | cancelled
  | chosen (name : JStr) (content : JStr) (refinement : JStr)
deriving DecidableEq, Repr

/-- src/states/scriptSelection.js `handleScriptSelection`: empty loaded content
is treated as a load failure (`if (!scriptContent)`) and exits; otherwise the
current exchange is replaced (no push) by a `prompt` exchange whose request is
the existing-script refinement wrapper, and script mode plus the script name are
set. -/
def handleScriptSelection (context : Context) (input : ScriptSelectionInput) : State × Context :=
  match input with
  | .noScripts => (State.NEW, context)
  | .cancelled => (State.EXIT, context)
  | .chosen name content refinement =>
    if content.isEmpty then (State.EXIT, context)
    else
      (State.USER_REQUEST,
        { context with
          currentCommand :=
            { eid := context.nextEid
              request := getRefinementPrompt (some content) refinement .undef
              existingScript := some content
              type := .prompt
              response := none }
          scriptName := some name
          scriptMode := true
          nextEid := context.nextEid + 1 })

/-- Inputs of src/states/setup.js: an abort, or a completed setup carrying the
chosen default model and whether several models were configured.  The
`USER_REQUEST` branch of the source guards on a `context.request` field the
entry function never sets, so the successful path always proceeds to `NEW`. -/
inductive SetupInput
  | abort
  | done (model : JStr) (multi : Bool)
deriving DecidableEq, Repr

/-- src/states/setup.js `handleSetup` (context-relevant effects only). -/
def handleSetup (context : Context) (input : SetupInput) : State × Context :=
  match input with
  | .abort => (State.EXIT, context)
  | .done m multi =>
    (State.NEW, { context with model := m, hasMultipleModels := multi })

/-- The environment input of one runner iteration, tagged by the state that
consumes it. -/
inductive Event
  | newE (i : NewInput)
  | userRequestE (i : UserRequestInput)
  | clarificationE (p : PromptRes)
  | userResponseE (k : ReviewKey)
  | executeE (run : ExecRun) (answer : PromptRes)
  | refineE (p : PromptRes)
  | changeModelE (s : SelectRes)
  | scriptSelectionE (i : ScriptSelectionInput)
  | setupE (i : SetupInput)
  | saveScriptE
deriving DecidableEq, Repr

/-- One runner iteration (src/machine.js `runStateMachine`): dispatch the
handler registered for the current state on a matching event.  A mismatched
event, a terminal state and the unknown `DEBUG` state produce no transition.
The runner merges `{ ...context, ...result.context }`; since every handler
returns a whole context this is replacement. -/
def step (s : State) (context : Context) (e : Event) : Option (State × Context) :=
  match s, e with
  | .NEW, .newE i => some (handleNew context i)
  | .USER_REQUEST, .userRequestE i => some (handleUserRequest context i)
  | .REQUEST_CLARIFICATION, .clarificationE p => some (handleRequestClarification context p)
  | .USER_RESPONSE, .userResponseE k => userResponseDispatch context k
  | .EXECUTE_COMMAND, .executeE run answer => some (handleExecuteCommand context run answer)
  | .REFINE, .refineE p => some (handleRefine context p)
  | .CHANGE_MODEL, .changeModelE sel => some (handleChangeModel context sel)
  | .SCRIPT_SELECTION, .scriptSelectionE i => some (handleScriptSelection context i)
  | .SETUP, .setupE i => some (handleSetup context i)
  | .SAVE_SCRIPT, .saveScriptE => some (State.EXIT, context)
  | _, _ => none

/-- Driving the machine over a list of environment events; events that produce
no transition are discarded. -/
def runSteps : State × Context → List Event → State × Context
  | cfg, [] => cfg
  | cfg, e :: es =>
    match step cfg.1 cfg.2 e with
    | some cfg1 => runSteps cfg1 es
    | none => runSteps cfg es

/-- The CLI surface of src/index.js `entry` that shapes the initial context and
state. -/
structure EntryOptions where
  request : JStr := []
  script : Bool := false
  refineScripts : Bool := false
  setup : Bool := false
  hasConfig : Bool := true
  defaultModel : JStr := []
  multipleModels : Bool := false
deriving DecidableEq, Repr

/-- The initial context built in `entry` (the `--existing-script` destructuring
never receives a value, so `existingScript` is `null` and the initial exchange
type is `prompt`). -/
def initialContext (o : EntryOptions) : Context :=
  { model := o.defaultModel
    scriptMode := o.script
    currentCommand :=
      { eid := 0
        request := o.request
        existingScript := none
        response := none
        refusedClarification := false
        type := .prompt }
    commandHistory := []
    scriptName := none
    hasMultipleModels := o.multipleModels
    nextEid := 1 }

/-- The initial state selection of `entry`. -/
def initialState (o : EntryOptions) : State :=
  if !o.hasConfig || o.setup then .SETUP
  else if o.refineScripts then .SCRIPT_SELECTION
  else if o.request.isEmpty then .NEW
  else .USER_REQUEST

/-- The configuration the runner starts from. -/
def entryConfig (o : EntryOptions) : State × Context :=
  (initialState o, initialContext o)

/-- The three transitions on which a new exchange replaces `currentCommand`
and the superseded one is pushed: a non-empty clarification answer, a non-empty
refinement instruction, and a non-empty post-execution refinement answer. -/
def isNewExchangeRound (s : State) (e : Event) : Bool :=
  match s, e with
  | .REQUEST_CLARIFICATION, .clarificationE (.text t) => !(jsTrim t).isEmpty
  | .REFINE, .refineE (.text t) => !(jsTrim t).isEmpty
  | .EXECUTE_COMMAND, .executeE _ (.text t) => !(jsTrim t).isEmpty
  | _, _ => false

/-- The number of new-exchange rounds a run performs. -/
def countNewExchangeRounds : State × Context → List Event → Nat
  | _, [] => 0
  | cfg, e :: es =>
    match step cfg.1 cfg.2 e with
    | some cfg1 =>
      (if isNewExchangeRound cfg.1 e then 1 else 0) + countNewExchangeRounds cfg1 es
    | none => countNewExchangeRounds cfg es

/-- The exchanges a run supersedes, oldest first. -/
def supersededExchanges : State × Context → List Event → List Exchange
  | _, [] => []
  | cfg, e :: es =>
    match step cfg.1 cfg.2 e with
    | some cfg1 =>
      (if isNewExchangeRound cfg.1 e then [cfg.2.currentCommand] else [])
        ++ supersededExchanges cfg1 es
    | none => supersededExchanges cfg es

/-- The host platforms `copyToClipboard` distinguishes. -/
inductive Platform
  | darwin
  | win32
  | linux
deriving DecidableEq, Repr

/-- `String.prototype.replace` with a global single-character pattern. -/
def replaceChar (target : Char) (repl : JStr) (s : JStr) : JStr :=
  (s.map fun c => if c = target then repl else [c]).flatten

/-- The Unix escaping chain of src/util.js `copyToClipboard`: backslashes,
double quotes, dollar signs and backticks are backslash-escaped, then newlines
and tabs become spaces, in source order. -/
def escapeClipboardUnix (text : JStr) : JStr :=
  replaceChar '\t' [' ']
    (replaceChar '\n' [' ']
      (replaceChar backtick ['\\', backtick]
        (replaceChar '$' ['\\', '$']
          (replaceChar '"' ['\\', '"']
            (replaceChar '\\' ['\\', '\\'] text)))))

/-- The text `copyToClipboard` actually pipes to the platform clipboard tool:
the input is trimmed, and on `darwin`-or-not-`win32` platforms the Unix escaping
chain is applied.  (The separate win32 PowerShell path is not modelled beyond
the branch condition.) -/
def copyToClipboardText (platform : Platform) (text : JStr) : JStr :=
  let t := jsTrim text
  if platform = .darwin || platform ≠ .win32 then escapeClipboardUnix t else t

/-- The shell command handed to the external `exec` on Linux
(`printf "%s" "<text>" | xclip -selection clipboard`). -/
def clipboardCommandLinux (text : JStr) : JStr :=
  "printf \"%s\" \"".data ++ copyToClipboardText .linux text
    ++ "\" | xclip -selection clipboard".data

/-- `currentCommand.response.content` with the `undefined` fallback of the
dynamic language. -/
def responseContent (command : Exchange) : JStr :=
  match command.response with
  | some r => r.content
  | none => []

/-- The text the review menu's copy action passes to `copyToClipboard`
(src/states/userResponse.js: `copyToClipboard(currentCommand.response.content.trim())`),
which is also the command text the menu renders. -/
def copyActionSource (context : Context) : JStr :=
  jsTrim (responseContent context.currentCommand)

/-- A concrete generated command used by the example runs. -/
def sampleResult : GeneratedResult :=
  { content := "echo $HOME".data, explanation := "prints the home directory".data }

/-- A concrete context sitting at review/execution with a generated command. -/
def sampleReviewContext : Context :=
  { model := "openai/gpt-4o".data
    currentCommand :=
      { eid := 0, request := "print my home directory".data, response := some sampleResult }
    nextEid := 1 }

/-- A successful child run that printed `hello` on stdout. -/
def sampleOkRun : ExecRun :=
  { chunks := [{ text := "hello".data, fromStderr := false }], ending := .close 0 }

/-- An interrupted child run (Ctrl+C, child closed with code 130). -/
def sampleInterruptedRun : ExecRun :=
  { chunks := [{ text := "partial".data, fromStderr := false }]
    interrupted := true
    ending := .close 130 }

/-- A run whose spawn failed. -/
def sampleSpawnErrorRun : ExecRun :=
  { ending := .spawnError "spawn ENOENT".data }

/-- The follow-up exchange `handleExecuteCommand` creates after `sampleOkRun`
when the user answers `fix the errors`: its `executionResults` slot holds the
plain output string. -/
def sampleExecExchange : Exchange :=
  { eid := 1
    request := "fix the errors".data
    response := some sampleResult
    executionResults := .str "out".data
    type := .refinement }

/-- A concrete context sitting at REFINE whose current exchange carries
execution results. -/
def sampleRefineContext : Context :=
  { currentCommand := sampleExecExchange
    commandHistory := [{ eid := 0, request := "print my home directory".data,
                         response := some sampleResult }]
    nextEid := 2 }

/-- Concrete entry options: a command request given on the CLI. -/
def sampleEntry : EntryOptions :=
  { request := "list files".data, defaultModel := "openai/gpt-4o".data }

/-- A concrete generation result that asks a clarifying question. -/
def sampleClarifyingResult : GeneratedResult :=
  { content := "ls".data, clarification_needed := "Which directory?".data }

/-- A concrete event trace: generation asks for clarification, the user answers,
generation succeeds, the user reviews.  It performs exactly one new-exchange
round (the clarification answer). -/
def sampleTrace : List Event :=
  [ .userRequestE { gen := .ok sampleClarifyingResult }
  , .clarificationE (.text "the current directory".data)
  , .userRequestE { gen := .ok sampleResult }
  , .userResponseE .enter ]

/-- A review context whose current exchange has refused clarification. -/
def sampleRefusedContext : Context :=
  { currentCommand :=
      { eid := 0, request := "zip my files".data, refusedClarification := true }
    nextEid := 1 }

/-! ## Theorems -/

/-- C4: captured execution output of length L is stored unchanged when
L ≤ 1000; when L > 1000 the stored output is the first 1000 characters followed
by the marker, the marker names exactly L - 1000 omitted characters, and the
stored length is 1000 plus the marker's length. -/
theorem output_truncation_spec (out : JStr) :
    (1000 < out.length →
      truncateOutput out = out.take 1000 ++ truncationMarker out.length
        ∧ (truncateOutput out).length = 1000 + (truncationMarker out.length).length
        ∧ truncationMarker out.length =
            '\n' :: "[Output truncated - ".data ++ (Nat.repr (out.length - 1000)).data
              ++ " more characters]".data)
    ∧ (out.length ≤ 1000 → truncateOutput out = out) := by
  constructor
  · intro h
    have hif : truncateOutput out = out.take 1000 ++ truncationMarker out.length := by
      simp only [truncateOutput, MAX_OUTPUT_LENGTH]
      rw [if_pos h]
    refine ⟨hif, ?_, rfl⟩
    rw [hif]
    simp [List.length_take]
    omega
  · intro h
    simp only [truncateOutput, MAX_OUTPUT_LENGTH]
    rw [if_neg (by omega)]

set_option maxRecDepth 4000 in
/-- C4 witness: the truncation law evaluated on a concrete 1001-character
output. -/
theorem output_truncation_spec_witness :
    truncateOutput (List.replicate 1001 'x')
        = (List.replicate 1001 'x').take 1000
            ++ truncationMarker ((List.replicate 1001 'x').length)
      ∧ (truncateOutput (List.replicate 1001 'x')).length
        = 1000 + (truncationMarker ((List.replicate 1001 'x').length)).length :=
  ⟨((output_truncation_spec (List.replicate 1001 'x')).1 (by simp)).1,
   ((output_truncation_spec (List.replicate 1001 'x')).1 (by simp)).2.1⟩

/-- C8: the temporary SIGINT listener is removed on every completion path of an
execution — the child closing with any exit code, and a failed spawn (where
Node still emits `close` after the `error` event, and the unconditionally
registered close handler runs the `removeListener`) — so after
`EXECUTE_COMMAND`'s execution finishes no extra SIGINT listener remains
installed; the second conjunct evaluates the spawn-error path concretely. -/
theorem sigint_listener_removed_on_completion :
    (∀ run : ExecRun, (runExecution run).1.sigintListenerInstalled = false)
    ∧ (runExecution sampleSpawnErrorRun).1.sigintListenerInstalled = false := by
  refine ⟨?_, rfl⟩
  intro run
  cases hend : run.ending
  · simp only [runExecution, hend]
    split <;> rfl
  · simp only [runExecution, hend]

/-- C9 counterexample: cancelling the post-execution refinement prompt makes
`handleExecuteCommand` return to `EXECUTE_COMMAND` — an effectful state that
re-runs the command — not to `EXIT` or the prior review state. -/
theorem cancel_postexec_prompt_reenters_execute :
    handleExecuteCommand sampleReviewContext sampleOkRun PromptRes.cancelled
      = (State.EXECUTE_COMMAND, sampleReviewContext)
    ∧ State.EXECUTE_COMMAND ≠ State.EXIT
    ∧ State.EXECUTE_COMMAND ≠ State.USER_RESPONSE := by
  refine ⟨rfl, by decide, by decide⟩

/-- C9 amended: every interactive handler catches prompt cancellation and
routes to `EXIT` or back to the review state, except the post-execution
refinement prompt of `EXECUTE_COMMAND`, whose cancellation re-enters
`EXECUTE_COMMAND` (and so re-executes the command). -/
theorem cancellation_routes_amended (c : Context) :
    (handleNew c .cancelled).1 = State.EXIT
    ∧ (∀ b, (handleNew c (.generate b .cancelled)).1 = State.EXIT)
    ∧ handleRequestClarification c .cancelled = (State.USER_RESPONSE, refuseClarification c)
    ∧ handleRefine c .cancelled = (State.USER_RESPONSE, c)
    ∧ (handleChangeModel c .cancelled).1 = State.EXIT
    ∧ (handleScriptSelection c .cancelled).1 = State.EXIT
    ∧ (handleSetup c .abort).1 = State.EXIT
    ∧ (∀ run, handleExecuteCommand c run .cancelled = (State.EXECUTE_COMMAND, c)) := by
  refine ⟨rfl, fun b => rfl, rfl, rfl, rfl, rfl, rfl, fun run => rfl⟩

/-- C9 amended witness: the routes evaluated on a concrete context. -/
theorem cancellation_routes_amended_witness :
    handleRefine sampleReviewContext .cancelled = (State.USER_RESPONSE, sampleReviewContext)
    ∧ handleExecuteCommand sampleReviewContext sampleOkRun .cancelled
        = (State.EXECUTE_COMMAND, sampleReviewContext) :=
  ⟨(cancellation_routes_amended sampleReviewContext).2.2.2.1,
   (cancellation_routes_amended sampleReviewContext).2.2.2.2.2.2.2 sampleOkRun⟩

/-- C5: evaluated at a concrete successful execution that captured `hello`, the
follow-up refinement exchange receives the plain output string — not an
`{ output, error }` record — so the review handler's Last Output block (which
fires exactly on the record shape with non-empty output, last conjunct) does
not render it. -/
theorem executionResults_attached_as_string :
    (handleExecuteCommand sampleReviewContext sampleOkRun
        (PromptRes.text "make it faster".data)).1 = State.USER_REQUEST
    ∧ (handleExecuteCommand sampleReviewContext sampleOkRun
        (PromptRes.text "make it faster".data)).2.currentCommand.executionResults
        = ExecResults.str "hello".data
    ∧ rendersLastOutput (handleExecuteCommand sampleReviewContext sampleOkRun
        (PromptRes.text "make it faster".data)).2.currentCommand = false
    ∧ rendersLastOutput { executionResults := ExecResults.outcome "hello".data false } = true
    ∧ rendersLastOutput { executionResults := ExecResults.outcome "hello".data true } = true := by
  refine ⟨by decide, by decide, by decide, rfl, rfl⟩

set_option maxRecDepth 10000 in
/-- C6: evaluated at a concrete REFINE round on an exchange carrying execution
results `out`: the new refinement exchange stores them under
`previousExecutionResults`, its `executionResults` slot stays `undefined`, and
the user turn the request builder makes for it is the plain refinement wrapper
— the output is not embedded.  The contrast conjuncts show the builder embeds
the output only for the slot it actually reads (`executionResults`, as filled
by the post-execution path). -/
theorem refine_results_not_embedded :
    (handleRefine sampleRefineContext (PromptRes.text "add flags".data)).1
        = State.USER_REQUEST
    ∧ (handleRefine sampleRefineContext
        (PromptRes.text "add flags".data)).2.currentCommand.previousExecutionResults
        = ExecResults.str "out".data
    ∧ (handleRefine sampleRefineContext
        (PromptRes.text "add flags".data)).2.currentCommand.executionResults
        = ExecResults.undef
    ∧ getPrompt (handleRefine sampleRefineContext
          (PromptRes.text "add flags".data)).2.currentCommand
        = "Please refine the previous response based on the following request:\n  ".data
            ++ "add flags".data ++ "\n  \n".data ++ changelogSentenceCommandOrScript
    ∧ getPrompt sampleExecExchange
        = "We ran it and got these results: ".data ++ "out".data
            ++ ". Please refine based on the following request: ".data
            ++ "fix the errors".data ++ changelogTailCommandOrScript
    ∧ (buildMessagesLLM (handleRefine sampleRefineContext
          (PromptRes.text "add flags".data)).2 []).getLast?
        = some (Message.mk Role.user (MsgContent.text
            (getPrompt (handleRefine sampleRefineContext
              (PromptRes.text "add flags".data)).2.currentCommand))) := by
  exact ⟨rfl, rfl, rfl, rfl, rfl, rfl⟩

/-- C3: when the user interrupt fires during an execution, the `sigintHandler`
kills only the child (the parent process is never exited), the execution
promise resolves whatever exit code the killed child closes with, and
`handleExecuteCommand` proceeds to the post-execution refinement prompt
dispatch rather than exiting the state machine. -/
theorem interrupt_scoped_to_child (c : Context) (run : ExecRun) (a : PromptRes)
    (h : run.interrupted = true) :
    (runExecution run).1.childKilled = true
    ∧ (runExecution run).1.parentExited = false
    ∧ (∀ code, run.ending = ChildEnd.close code → (runExecution run).1.promiseResolved = true)
    ∧ handleExecuteCommand c run a
        = postExecutionPrompt c (truncateOutput (runExecution run).2.1) a := by
  refine ⟨?_, ?_, ?_, rfl⟩
  · cases hend : run.ending
    · simp only [runExecution, hend, h]
      split <;> rfl
    · simp only [runExecution, hend, h]
  · cases hend : run.ending
    · simp only [runExecution, hend]
      split <;> rfl
    · simp only [runExecution, hend]
  · intro code hend
    simp only [runExecution, hend, h]
    split <;> simp_all

/-- C3 witness: the interrupt-scoping law evaluated on a concrete interrupted
run. -/
theorem interrupt_scoped_to_child_witness :
    (runExecution sampleInterruptedRun).1.childKilled = true
    ∧ (runExecution sampleInterruptedRun).1.parentExited = false
    ∧ handleExecuteCommand sampleReviewContext sampleInterruptedRun (PromptRes.text [])
        = postExecutionPrompt sampleReviewContext
            (truncateOutput (runExecution sampleInterruptedRun).2.1) (PromptRes.text []) :=
  ⟨(interrupt_scoped_to_child sampleReviewContext sampleInterruptedRun (PromptRes.text []) rfl).1,
   (interrupt_scoped_to_child sampleReviewContext sampleInterruptedRun (PromptRes.text []) rfl).2.1,
   (interrupt_scoped_to_child sampleReviewContext sampleInterruptedRun (PromptRes.text []) rfl).2.2.2⟩

set_option maxRecDepth 10000 in
set_option maxHeartbeats 1000000 in
/-- C10: the copy action does not hand the rendered command verbatim to the
clipboard collaborator: the piped text is the trimmed input run through the
escaping chain (newlines/tabs to spaces; backslashes, double quotes, dollar
signs and backticks escaped), and on the concrete generated command
`echo $HOME` the copied text differs from the rendered one. -/
theorem copy_action_transforms_text :
    (∀ t, copyToClipboardText .linux t = escapeClipboardUnix (jsTrim t))
    ∧ (∀ t, copyToClipboardText .darwin t = escapeClipboardUnix (jsTrim t))
    ∧ copyActionSource sampleReviewContext = "echo $HOME".data
    ∧ copyToClipboardText .linux (copyActionSource sampleReviewContext)
        ≠ copyActionSource sampleReviewContext
    ∧ copyToClipboardText .linux (copyActionSource sampleReviewContext)
        = "echo ".data ++ ['\\', '$'] ++ "HOME".data
    ∧ clipboardCommandLinux (copyActionSource sampleReviewContext)
        = "printf \"%s\" \"".data ++ ("echo ".data ++ ['\\', '$'] ++ "HOME".data)
            ++ "\" | xclip -selection clipboard".data := by
  exact ⟨fun t => rfl, fun t => rfl, rfl, by decide, rfl, rfl⟩

/-- The identity invariant every reachable context maintains: the current
exchange was allocated after every history entry (and before the allocation
counter). -/
def CtxInv (c : Context) : Prop :=
  c.currentCommand.eid < c.nextEid
    ∧ ∀ x ∈ c.commandHistory, x.eid < c.currentCommand.eid

theorem ctxInv_entry (o : EntryOptions) : CtxInv (entryConfig o).2 := by
  refine ⟨by simp [entryConfig, initialContext], ?_⟩
  intro x hx
  simp [entryConfig, initialContext] at hx

/-- Each transition preserves the identity invariant, and extends the history
by exactly the superseded current exchange precisely on the new-exchange
rounds (and leaves it untouched otherwise). -/
theorem step_inv {s : State} {c : Context} {e : Event} {out : State × Context}
    (hst : step s c e = some out) (hinv : CtxInv c) :
    CtxInv out.2
    ∧ out.2.commandHistory =
        (if isNewExchangeRound s e then c.commandHistory ++ [c.currentCommand]
         else c.commandHistory) := by
  obtain ⟨hcur, hhist⟩ := hinv
  have hkeep : CtxInv c := ⟨hcur, hhist⟩
  have hpush : ∀ y ∈ c.commandHistory ++ [c.currentCommand], y.eid < c.nextEid := by
    intro y hy
    rcases List.mem_append.1 hy with hy | hy
    · have := hhist y hy; omega
    · simp at hy; subst hy; omega
  cases s <;> cases e <;> simp only [step] at hst <;> try exact Option.noConfusion hst
  · -- NEW / newE
    rw [Option.some.injEq] at hst; subst hst
    rename_i i
    cases i with
    | cancelled => exact ⟨hkeep, rfl⟩
    | refineExisting => exact ⟨hkeep, rfl⟩
    | generate b req =>
      cases req with
      | cancelled => exact ⟨hkeep, rfl⟩
      | text t =>
        simp only [handleNew]
        by_cases he : (jsTrim t).isEmpty
        · rw [if_pos he]; exact ⟨hkeep, rfl⟩
        · rw [if_neg he]
          exact ⟨⟨Nat.lt_succ_self _,
            fun x hx => lt_trans (hhist x hx) hcur⟩, rfl⟩
  · -- USER_REQUEST / userRequestE
    rw [Option.some.injEq] at hst; subst hst
    rename_i i
    unfold handleUserRequest
    rcases hg : i.gen with r | _
    · dsimp only
      split
      · exact ⟨hkeep, rfl⟩
      · split
        · exact ⟨hkeep, rfl⟩
        · exact ⟨hkeep, rfl⟩
    · exact ⟨hkeep, rfl⟩
  · -- USER_RESPONSE / userResponseE
    rename_i k
    cases k <;> simp only [userResponseDispatch] at hst <;>
      first
      | exact Option.noConfusion hst
      | (split at hst
         · rw [Option.some.injEq] at hst; subst hst
           exact ⟨hkeep, rfl⟩
         · exact Option.noConfusion hst)
      | (rw [Option.some.injEq] at hst; subst hst
         exact ⟨hkeep, rfl⟩)
  · -- REQUEST_CLARIFICATION / clarificationE
    rw [Option.some.injEq] at hst; subst hst
    rename_i p
    cases p with
    | cancelled => exact ⟨hkeep, rfl⟩
    | text t =>
      simp only [handleRequestClarification]
      by_cases he : (jsTrim t).isEmpty
      · rw [if_pos he]
        exact ⟨hkeep, by simp [isNewExchangeRound, he, refuseClarification]⟩
      · rw [if_neg he]
        exact ⟨⟨Nat.lt_succ_self _, fun x hx => hpush x hx⟩,
          by simp [isNewExchangeRound, he]⟩
  · -- EXECUTE_COMMAND / executeE
    rw [Option.some.injEq] at hst; subst hst
    rename_i run a
    cases a with
    | cancelled => exact ⟨hkeep, rfl⟩
    | text t =>
      simp only [handleExecuteCommand, postExecutionPrompt]
      by_cases he : (jsTrim t).isEmpty
      · rw [if_pos he]
        exact ⟨hkeep, by simp [isNewExchangeRound, he]⟩
      · rw [if_neg he]
        exact ⟨⟨Nat.lt_succ_self _, fun x hx => hpush x hx⟩,
          by simp [isNewExchangeRound, he]⟩
  · -- REFINE / refineE
    rw [Option.some.injEq] at hst; subst hst
    rename_i p
    cases p with
    | cancelled => exact ⟨hkeep, rfl⟩
    | text t =>
      simp only [handleRefine]
      by_cases he : (jsTrim t).isEmpty
      · rw [if_pos he]
        exact ⟨hkeep, by simp [isNewExchangeRound, he]⟩
      · rw [if_neg he]
        exact ⟨⟨Nat.lt_succ_self _, fun x hx => hpush x hx⟩,
          by simp [isNewExchangeRound, he]⟩
  · -- CHANGE_MODEL / changeModelE
    rw [Option.some.injEq] at hst; subst hst
    rename_i sel
    cases sel with
    | cancelled => exact ⟨hkeep, rfl⟩
    | selected m =>
      simp only [handleChangeModel]
      by_cases hm : m = c.model
      · rw [if_pos hm]; exact ⟨hkeep, rfl⟩
      · rw [if_neg hm]; exact ⟨hkeep, rfl⟩
  · -- SAVE_SCRIPT / saveScriptE
    rw [Option.some.injEq] at hst; subst hst
    exact ⟨hkeep, rfl⟩
  · -- SCRIPT_SELECTION / scriptSelectionE
    rw [Option.some.injEq] at hst; subst hst
    rename_i i
    cases i with
    | noScripts => exact ⟨hkeep, rfl⟩
    | cancelled => exact ⟨hkeep, rfl⟩
    | chosen name content refinement =>
      simp only [handleScriptSelection]
      by_cases he : content.isEmpty
      · rw [if_pos he]; exact ⟨hkeep, rfl⟩
      · rw [if_neg he]
        exact ⟨⟨Nat.lt_succ_self _,
          fun x hx => lt_trans (hhist x hx) hcur⟩, rfl⟩
  · -- SETUP / setupE
    rw [Option.some.injEq] at hst; subst hst
    rename_i i
    cases i with
    | abort => exact ⟨hkeep, rfl⟩
    | done m multi => exact ⟨hkeep, rfl⟩

/-- Driving the machine preserves the invariant; the final history is the
initial one extended by exactly the superseded exchanges (oldest first), and
their number is the number of new-exchange rounds of the trace. -/
theorem runSteps_inv (evs : List Event) :
    ∀ cfg : State × Context, CtxInv cfg.2 →
      CtxInv (runSteps cfg evs).2
      ∧ (runSteps cfg evs).2.commandHistory
          = cfg.2.commandHistory ++ supersededExchanges cfg evs
      ∧ (supersededExchanges cfg evs).length = countNewExchangeRounds cfg evs := by
  induction evs with
  | nil =>
    intro cfg hinv
    exact ⟨hinv, by simp [runSteps, supersededExchanges],
      by simp [supersededExchanges, countNewExchangeRounds]⟩
  | cons e es ih =>
    intro cfg hinv
    cases hst : step cfg.1 cfg.2 e with
    | none =>
      have h := ih cfg hinv
      refine ⟨?_, ?_, ?_⟩
      · simpa [runSteps, hst] using h.1
      · rw [show runSteps cfg (e :: es) = runSteps cfg es from by simp [runSteps, hst]]
        rw [show supersededExchanges cfg (e :: es) = supersededExchanges cfg es from by
          simp [supersededExchanges, hst]]
        exact h.2.1
      · rw [show supersededExchanges cfg (e :: es) = supersededExchanges cfg es from by
          simp [supersededExchanges, hst]]
        rw [show countNewExchangeRounds cfg (e :: es) = countNewExchangeRounds cfg es from by
          simp [countNewExchangeRounds, hst]]
        exact h.2.2
    | some cfg1 =>
      have hstep := step_inv hst hinv
      have h := ih cfg1 hstep.1
      have hrun : runSteps cfg (e :: es) = runSteps cfg1 es := by simp [runSteps, hst]
      have hsup : supersededExchanges cfg (e :: es)
          = (if isNewExchangeRound cfg.1 e then [cfg.2.currentCommand] else [])
              ++ supersededExchanges cfg1 es := by
        simp [supersededExchanges, hst]
      have hcnt : countNewExchangeRounds cfg (e :: es)
          = (if isNewExchangeRound cfg.1 e then 1 else 0)
              + countNewExchangeRounds cfg1 es := by
        simp [countNewExchangeRounds, hst]
      refine ⟨by rw [hrun]; exact h.1, ?_, ?_⟩
      · rw [hrun, hsup, h.2.1, hstep.2]
        by_cases hr : isNewExchangeRound cfg.1 e <;> simp [hr]
      · rw [hsup, hcnt, ← h.2.2]
        by_cases hr : isNewExchangeRound cfg.1 e <;> simp [hr]
        omega

/-- C1: over every run of the machine from program entry, the history never
contains the in-progress current exchange; it equals exactly the superseded
exchanges in chronological (oldest-first) order; its size equals the number of
new-exchange rounds performed; and a further step appends to it exactly when
that step is a new-exchange round (a clarification answer, a refinement
instruction, or a post-execution refinement). -/
theorem history_append_only (o : EntryOptions) (evs : List Event) :
    (runSteps (entryConfig o) evs).2.currentCommand
        ∉ (runSteps (entryConfig o) evs).2.commandHistory
    ∧ (runSteps (entryConfig o) evs).2.commandHistory
        = supersededExchanges (entryConfig o) evs
    ∧ (runSteps (entryConfig o) evs).2.commandHistory.length
        = countNewExchangeRounds (entryConfig o) evs
    ∧ (∀ e cfg1, step (runSteps (entryConfig o) evs).1 (runSteps (entryConfig o) evs).2 e
          = some cfg1 →
        (cfg1.2.commandHistory
            = (runSteps (entryConfig o) evs).2.commandHistory
                ++ [(runSteps (entryConfig o) evs).2.currentCommand]
          ↔ isNewExchangeRound (runSteps (entryConfig o) evs).1 e = true)) := by
  have h := runSteps_inv evs (entryConfig o) (ctxInv_entry o)
  have hempty : (entryConfig o).2.commandHistory = [] := rfl
  refine ⟨?_, ?_, ?_, ?_⟩
  · intro hmem
    have := h.1.2 _ hmem
    omega
  · rw [h.2.1, hempty]; rfl
  · rw [h.2.1, hempty, List.nil_append, h.2.2]
  · intro e cfg1 hst
    have hs := step_inv hst h.1
    constructor
    · intro hb
      by_contra hr
      rw [Bool.not_eq_true] at hr
      rw [hr] at hs
      simp at hs
      rw [hs.2] at hb
      have : ((runSteps (entryConfig o) evs).2.commandHistory).length
          = ((runSteps (entryConfig o) evs).2.commandHistory).length + 1 := by
        conv_lhs => rw [hb]
        simp
      omega
    · intro hr
      rw [hr] at hs
      simpa using hs.2

/-- C1 witness: the law evaluated on a concrete entry and a concrete trace with
one clarification round: one history entry, equal to the round count. -/
theorem history_append_only_witness :
    (runSteps (entryConfig sampleEntry) sampleTrace).2.currentCommand
        ∉ (runSteps (entryConfig sampleEntry) sampleTrace).2.commandHistory
    ∧ (runSteps (entryConfig sampleEntry) sampleTrace).2.commandHistory.length
        = countNewExchangeRounds (entryConfig sampleEntry) sampleTrace
    ∧ countNewExchangeRounds (entryConfig sampleEntry) sampleTrace = 1 :=
  ⟨(history_append_only sampleEntry sampleTrace).1,
   (history_append_only sampleEntry sampleTrace).2.2.1,
   by decide⟩

/-- C2: once an exchange has `refusedClarification = true`, `handleUserRequest`
never routes it to `REQUEST_CLARIFICATION` — even when the generated result
carries a non-empty `clarification_needed` — and, apart from an accepted
command→script conversion, every successful generation lands on
`USER_RESPONSE`; and `handleRequestClarification` turns cancellation or
empty (trimmed) input into `refusedClarification = true` on the same exchange
and moves to `USER_RESPONSE` with no further generation round. -/
theorem refused_clarification_routing (c : Context) (i : UserRequestInput)
    (href : c.currentCommand.refusedClarification = true) :
    (handleUserRequest c i).1 ≠ State.REQUEST_CLARIFICATION
    ∧ (∀ r, i.gen = GenOutcome.ok r →
        ¬(c.scriptMode = false ∧ r.should_be_script = true ∧ i.confirm = some true) →
        (handleUserRequest c i).1 = State.USER_RESPONSE)
    ∧ handleRequestClarification c PromptRes.cancelled
        = (State.USER_RESPONSE, refuseClarification c)
    ∧ (∀ t, (jsTrim t).isEmpty = true →
        handleRequestClarification c (PromptRes.text t)
          = (State.USER_RESPONSE, refuseClarification c)) := by
  refine ⟨?_, ?_, rfl, ?_⟩
  · unfold handleUserRequest
    rcases hg : i.gen with r | _
    · have hcond : (!c.currentCommand.refusedClarification
          && !r.clarification_needed.isEmpty
          && !(jsTrim r.clarification_needed).isEmpty) = false := by
        rw [href]; rfl
      dsimp only
      rw [hcond]
      split
      · simp
      · simp
    · simp
  · intro r hg hns
    unfold handleUserRequest
    rw [hg]
    have hcond : (!c.currentCommand.refusedClarification
        && !r.clarification_needed.isEmpty
        && !(jsTrim r.clarification_needed).isEmpty) = false := by
      rw [href]; rfl
    have houter : (!c.scriptMode && r.should_be_script && (i.confirm == some true))
        = false := by
      by_contra hb
      rw [Bool.not_eq_false] at hb
      simp only [Bool.and_eq_true, Bool.not_eq_true', beq_iff_eq] at hb
      exact hns ⟨hb.1.1, hb.1.2, hb.2⟩
    dsimp only
    rw [hcond, houter]
    rfl
  · intro t ht
    simp only [handleRequestClarification]
    rw [if_pos ht]

/-- C2 witness: the routing evaluated on a concrete refused exchange whose
regenerated result still asks a clarifying question, and on an all-blank
clarification answer. -/
theorem refused_clarification_routing_witness :
    (handleUserRequest sampleRefusedContext { gen := .ok sampleClarifyingResult }).1
        = State.USER_RESPONSE
    ∧ handleRequestClarification sampleRefusedContext (PromptRes.text "   ".data)
        = (State.USER_RESPONSE, refuseClarification sampleRefusedContext) :=
  ⟨(refused_clarification_routing sampleRefusedContext
        { gen := .ok sampleClarifyingResult } rfl).2.1
      sampleClarifyingResult rfl (by decide),
   (refused_clarification_routing sampleRefusedContext
        { gen := .ok sampleClarifyingResult } rfl).2.2.2 "   ".data (by decide)⟩

theorem jsOrStr_some {s : JStr} (b : Option JStr) (h : s ≠ []) :
    jsOrStr (some s) b = some s := by
  simp only [jsOrStr]
  rw [if_neg (by simpa [List.isEmpty_iff] using h)]

theorem stripLeadHyphen_subset (y : JStr) : ∀ ch ∈ stripLeadHyphen y, ch ∈ y := by
  intro ch h
  unfold stripLeadHyphen at h
  split at h
  · exact List.mem_cons_of_mem _ h
  · exact h

theorem stripEdgeHyphen_subset (y : JStr) : ∀ ch ∈ stripEdgeHyphen y, ch ∈ y := by
  intro ch h
  unfold stripEdgeHyphen at h
  rw [List.mem_reverse] at h
  have h2 := stripLeadHyphen_subset _ ch h
  rw [List.mem_reverse] at h2
  exact stripLeadHyphen_subset _ ch h2

theorem collapseNonKebabGo_chars (x : JStr) :
    ∀ (b : Bool), ∀ ch ∈ collapseNonKebabGo b x, isKebabKeep ch = true ∨ ch = '-' := by
  induction x with
  | nil => intro b ch h; simp [collapseNonKebabGo] at h
  | cons c0 rest ih =>
    intro b ch h
    simp only [collapseNonKebabGo] at h
    by_cases hk : isKebabKeep c0
    · rw [if_pos hk] at h
      rcases List.mem_cons.1 h with rfl | h
      · exact Or.inl hk
      · exact ih false ch h
    · rw [if_neg hk] at h
      cases b with
      | true => exact ih true ch (by simpa using h)
      | false =>
        rcases List.mem_cons.1 (by simpa using h) with rfl | h2
        · exact Or.inr rfl
        · exact ih true ch h2

theorem generateRandomHash_length (bs : List Nat) :
    (generateRandomHash bs).length = 2 * bs.length := by
  induction bs with
  | nil => rfl
  | cons b bs ih =>
    have hcons : generateRandomHash (b :: bs) = byteToHex b ++ generateRandomHash bs := rfl
    rw [hcons, List.length_append, ih]
    simp [byteToHex]
    omega

theorem hexDigit_range : ∀ n, n < 16 →
    (48 ≤ (hexDigit n).toNat ∧ (hexDigit n).toNat ≤ 57)
      ∨ (97 ≤ (hexDigit n).toNat ∧ (hexDigit n).toNat ≤ 102) := by decide

/-- C7: the script name is kept unchanged by every `USER_REQUEST` round once
assigned; on the first successful script-mode generation it is assigned as the
kebab-normalised model-suggested name plus a hyphen and the random-byte hex
suffix; that suffix has 8 lowercase-hex characters; and the normalised part
uses only `[a-z0-9]` and hyphens. -/
theorem scriptName_assigned_once (c : Context) (i : UserRequestInput) (s : JStr) :
    (c.scriptName = some s → s ≠ [] →
      (handleUserRequest c i).2.scriptName = some s)
    ∧ (c.scriptName = none → c.scriptMode = true →
        ∀ r, i.gen = GenOutcome.ok r →
          (handleUserRequest c i).2.scriptName
            = some (normalizeScriptName
                  (if r.script_name.isEmpty then "generated-script".data else r.script_name)
                ++ '-' :: generateRandomHash i.randomBytes))
    ∧ (i.randomBytes.length = 4 →
        (generateRandomHash i.randomBytes).length = 8
        ∧ ∀ ch ∈ generateRandomHash i.randomBytes,
            (48 ≤ ch.toNat ∧ ch.toNat ≤ 57) ∨ (97 ≤ ch.toNat ∧ ch.toNat ≤ 102))
    ∧ (∀ x : JStr, ∀ ch ∈ normalizeScriptName x, isKebabKeep ch = true ∨ ch = '-') := by
  refine ⟨?_, ?_, ?_, ?_⟩
  · intro hs hne
    unfold handleUserRequest
    rcases hg : i.gen with r | _
    · dsimp only
      rw [hs]
      split
      · rfl
      · split
        · exact jsOrStr_some _ hne
        · exact jsOrStr_some _ hne
    · exact hs
  · intro hs hm r hg
    unfold handleUserRequest
    rw [hg]
    dsimp only
    rw [hm, hs]
    have houter : (!true && r.should_be_script && (i.confirm == some true)) = false := rfl
    rw [houter]
    rw [if_neg (by simp)]
    split
    · simp [jsOrStr]
    · simp [jsOrStr]
  · intro h4
    refine ⟨by rw [generateRandomHash_length, h4], ?_⟩
    intro ch hch
    simp only [generateRandomHash, List.mem_flatten, List.mem_map] at hch
    obtain ⟨l, ⟨b, _, rfl⟩, hchl⟩ := hch
    simp only [byteToHex, List.mem_cons, List.not_mem_nil, or_false] at hchl
    rcases hchl with rfl | rfl
    · exact hexDigit_range _ (by omega)
    · exact hexDigit_range _ (by omega)
  · intro x ch hch
    have h1 := stripEdgeHyphen_subset _ ch hch
    exact collapseNonKebabGo_chars _ false ch h1

/-- C7 witness: the stability and first-assignment laws evaluated on concrete
script-mode rounds. -/
theorem scriptName_assigned_once_witness :
    (handleUserRequest { sampleReviewContext with scriptName := some "tool-1a2b3c4d".data }
        { gen := .ok sampleResult }).2.scriptName = some "tool-1a2b3c4d".data
    ∧ (handleUserRequest { sampleReviewContext with scriptMode := true }
        { gen := .ok { sampleResult with script_name := "My Tool".data }
          randomBytes := [26, 43, 60, 77] }).2.scriptName
      = some (normalizeScriptName "My Tool".data
          ++ '-' :: generateRandomHash [26, 43, 60, 77])
    ∧ (generateRandomHash [26, 43, 60, 77]).length = 8 :=
  ⟨(scriptName_assigned_once
      { sampleReviewContext with scriptName := some "tool-1a2b3c4d".data }
      { gen := .ok sampleResult } "tool-1a2b3c4d".data).1 rfl (by decide),
   by
    have h := (scriptName_assigned_once { sampleReviewContext with scriptMode := true }
      { gen := .ok { sampleResult with script_name := "My Tool".data }
        randomBytes := [26, 43, 60, 77] } []).2.1 rfl rfl
      { sampleResult with script_name := "My Tool".data } rfl
    simpa using h,
   (scriptName_assigned_once sampleReviewContext
      { gen := .ok sampleResult, randomBytes := [26, 43, 60, 77] } []).2.2.1 rfl |>.1⟩

end Ai2cli
